import Mathlib

/-!
Verification of the congestion hot-spot pipeline in src/frontend/app.py
(AlertaVIAl). The embedding models the pipeline's data model and the five
core operations over exact rationals:

* detectar_microparadas (app.py lines 41-44): per-row micro-stop flagging.
* agrupar_con_modelo (lines 49-58): StandardScaler.fit_transform followed by
  a DBSCAN model's fit_predict. The scaler is embedded faithfully to
  sklearn's semantics (per-column standardization, zero-variance columns get
  scale 1 via sklearn's handle-zeros-in-scale policy, and fitting an empty
  batch fails sklearn's minimum-sample check); the square root on variances
  is an abstract parameter sqrtFn, and the fitted DBSCAN labelling is an
  abstract parameter model, since no claim depends on their numeric output.
* the summary block (lines 174-182): filter out noise (-1), pandas groupby
  on the cluster column (groups keyed by the sorted distinct cluster values)
  aggregating size and the three column means, then
  sort_values on count with ascending set to false. pandas implements the
  descending sort by reversing the rows, argsorting ascending, and reversing
  the resulting indexer (pandas.core.sorting.nargsort). The fixed model
  summary takes the stable List.insertionSort as the argsort and serves the
  order-independent membership claims; because the default numpy quicksort
  guarantees no order among equal counts beyond its small-array
  insertion-sort regime, the ordering claim is settled against summaryWith,
  which leaves the argsort abstract, constrained only to numpy's contract
  (an ascending-by-count permutation).
* the SMS alert filter (lines 186-192): count at least min_cluster_size,
  and, when the speed checkbox is on, mean speed below the literal 5.

Floats are modelled as rationals, dataframes as lists of rows, a raised
error as an Except value.
-/

namespace AlertaVial

/-- One GPS sample of the uploaded batch: the Latitud and Longitud columns
and the resolved speed column (col_vel) of app.py. -/
structure Sample where
  lat : ℚ
  lon : ℚ
  vel : ℚ
deriving DecidableEq, Repr

/-- One row of the dataframe returned by detectar_microparadas: the original
sample plus the added alerta column (a string, exactly as the code builds it). -/
structure MicroRow where
  row : Sample
  alerta : String
deriving DecidableEq, Repr

/-- app.py lines 41-44: df gets a copy with an alerta column holding the
warning emoji when the speed is below 5 and the check emoji otherwise. -/
def detectar_microparadas (df : List Sample) : List MicroRow :=
  df.map (fun r => { row := r, alerta := if r.vel < 5 then "⚠️" else "✅" })

/-- app.py line 146: the map-rendering loop derives a marker color by
comparing the alerta column against the warning emoji. This is rendering
code, kept here only to name the display strings the renderer works with. -/
def renderColor (r : MicroRow) : String :=
  if r.alerta = "⚠️" then "red" else "green"

/-- The error taxonomy of the spec restricted to what the code can surface:
InsufficientDataError stands for the error sklearn's check-array raises when
StandardScaler.fit_transform receives zero samples (app.py line 54). -/
inductive PipelineError where
  | insufficientData
deriving DecidableEq, Repr

/-- Mean of one feature column, as StandardScaler computes it. -/
def colMean (xs : List ℚ) : ℚ := xs.sum / xs.length

/-- Population variance of one feature column, as StandardScaler computes it. -/
def colVar (xs : List ℚ) : ℚ :=
  ((xs.map (fun x => (x - colMean xs) ^ 2)).sum) / xs.length

/-- The per-column scale StandardScaler divides by: the square root of the
variance, except that sklearn's handle-zeros-in-scale replaces a zero scale
(equivalently, a zero variance) by 1. sqrtFn abstracts the square root. -/
def colScale (sqrtFn : ℚ → ℚ) (xs : List ℚ) : ℚ :=
  if colVar xs = 0 then 1 else sqrtFn (colVar xs)

/-- Standardization of one feature column: subtract the column mean, divide
by the column scale. -/
def standardizeCol (sqrtFn : ℚ → ℚ) (xs : List ℚ) : List ℚ :=
  xs.map (fun x => (x - colMean xs) / colScale sqrtFn xs)

/-- app.py lines 51-54: the Latitud, Longitud and speed columns are taken as
floats and standardized per batch by StandardScaler.fit_transform. Fitting
zero samples fails sklearn's minimum-sample check (the batch-empty error);
otherwise each of the three columns is standardized independently and the
rows are the triples of standardized values. -/
def fit_transform (sqrtFn : ℚ → ℚ) (df : List Sample) :
    Except PipelineError (List (ℚ × ℚ × ℚ)) :=
  if df.isEmpty then .error .insufficientData
  else
    .ok ((standardizeCol sqrtFn (df.map Sample.lat)).zip
      ((standardizeCol sqrtFn (df.map Sample.lon)).zip
        (standardizeCol sqrtFn (df.map Sample.vel))))

/-- One row of the dataframe returned by agrupar_con_modelo: the original
sample plus the added cluster column (a DBSCAN label, -1 meaning noise). -/
structure ClusterRow where
  row : Sample
  cluster : ℤ
deriving DecidableEq, Repr

/-- app.py lines 49-58: copy the dataframe, standardize the three feature
columns, run the loaded DBSCAN model's fit_predict on the result and attach
the labels as the cluster column. The fitted model is abstracted as a
function from the feature matrix to the label list (DBSCAN returns one label
per input row; theorems that need that totality assume it explicitly). -/
def agrupar_con_modelo (sqrtFn : ℚ → ℚ) (model : List (ℚ × ℚ × ℚ) → List ℤ)
    (df : List Sample) : Except PipelineError (List ClusterRow) :=
  match fit_transform sqrtFn df with
  | .error e => .error e
  | .ok x => .ok ((df.zip (model x)).map (fun p => { row := p.1, cluster := p.2 }))

/-- One row of the summary dataframe of app.py lines 175-182: cluster id,
group size (count), the two centroid coordinates and the mean speed. -/
structure SummaryRow where
  cluster : ℤ
  count : ℕ
  lat : ℚ
  lon : ℚ
  vel_prom : ℚ
deriving DecidableEq, Repr

/-- The rows of a clustered dataframe carrying a given cluster id. -/
def membersOf (dfc : List ClusterRow) (c : ℤ) : List ClusterRow :=
  dfc.filter (fun r => r.cluster = c)

/-- The aggregation of app.py lines 177-180 for one groupby group: size of
the group and the means of Latitud, Longitud and the speed column over it. -/
def summaryRow (valid : List ClusterRow) (c : ℤ) : SummaryRow :=
  let m := membersOf valid c
  { cluster := c
    count := m.length
    lat := (m.map (fun r => r.row.lat)).sum / m.length
    lon := (m.map (fun r => r.row.lon)).sum / m.length
    vel_prom := (m.map (fun r => r.row.vel)).sum / m.length }

/-- app.py lines 174-180: drop the noise rows (cluster -1), then groupby on
the cluster column (pandas emits one group per distinct key, keys in
ascending order) and aggregate each group with summaryRow. -/
def groupbyCluster (dfc : List ClusterRow) : List SummaryRow :=
  let valid := dfc.filter (fun r => r.cluster ≠ -1)
  let keys := List.insertionSort (· ≤ ·) (valid.map (fun r => r.cluster)).dedup
  keys.map (summaryRow valid)

/-- app.py line 181: sort_values on the count column with ascending false,
with the ascending argsort fixed to the stable List.insertionSort. pandas
(pandas.core.sorting.nargsort) implements the descending order by reversing
the rows, argsorting ascending, and reversing the resulting indexer. The
membership claims use this fixed model (every admissible argsort yields the
same membership); the ordering claim is settled against the
argsort-parametric sortValuesCountDescWith below, because the default numpy
quicksort guarantees no tie order in general. -/
def sortValuesCountDesc (rows : List SummaryRow) : List SummaryRow :=
  (List.insertionSort (fun a b => a.count ≤ b.count) rows.reverse).reverse

/-- The summary dataframe of app.py lines 175-182. -/
def summary (dfc : List ClusterRow) : List SummaryRow :=
  sortValuesCountDesc (groupbyCluster dfc)

/-- app.py lines 188-192: the boolean mask keeping the summary rows whose
count is at least min_cluster_size and, when the speed checkbox
usar_filtro_velocidad is on, whose mean speed is below the literal 5 (the
speed bound is hardcoded in the source, not a configuration input). -/
def alertFilter (min_cluster_size : ℕ) (usar_filtro_velocidad : Bool)
    (s : List SummaryRow) : List SummaryRow :=
  s.filter (fun r => decide (min_cluster_size ≤ r.count) &&
    (if usar_filtro_velocidad then decide (r.vel_prom < 5) else true))

/-- Modelled from the spec: the AlertEvaluator contract, which takes the
speed threshold as a configuration value instead of the hardcoded 5. Written
from the spec's words for comparison with alertFilter. -/
def alertFilterSpec (min_size : ℕ) (speed_filter_enabled : Bool)
    (speed_threshold : ℚ) (s : List SummaryRow) : List SummaryRow :=
  s.filter (fun r => decide (min_size ≤ r.count) &&
    (if speed_filter_enabled then decide (r.vel_prom < speed_threshold) else true))

/-! ## Claim C2: micro-stop flagging threshold -/

/-- C2. For every sample in the batch, detectar_microparadas flags the
sample (alerta is the warning emoji) if and only if its speed is strictly
below 5 km/h; at speed exactly 5 or above the sample is not flagged (alerta
is the check emoji). -/
theorem detectar_microparadas_flag_iff (df : List Sample) (r : MicroRow)
    (hr : r ∈ detectar_microparadas df) :
    (r.alerta = "⚠️" ↔ r.row.vel < 5) ∧ (5 ≤ r.row.vel → r.alerta = "✅") := by
  simp only [detectar_microparadas, List.mem_map] at hr
  obtain ⟨s, -, rfl⟩ := hr
  by_cases h : s.vel < 5
  · simp [h]
  · constructor
    · simp only [if_neg h]
      constructor
      · intro he
        exact absurd he (by decide)
      · intro hv
        exact absurd hv h
    · intro _
      simp [if_neg h]

/-- Witness for C2 at the one-sample batch with speed 3. -/
theorem detectar_microparadas_flag_iff_witness :
    ((({ row := ⟨0, 0, 3⟩, alerta := "⚠️" } : MicroRow).alerta = "⚠️" ↔
        ({ row := ⟨0, 0, 3⟩, alerta := "⚠️" } : MicroRow).row.vel < 5) ∧
      (5 ≤ ({ row := ⟨0, 0, 3⟩, alerta := "⚠️" } : MicroRow).row.vel →
        ({ row := ⟨0, 0, 3⟩, alerta := "⚠️" } : MicroRow).alerta = "✅")) :=
  detectar_microparadas_flag_iff [⟨0, 0, 3⟩] _ (by decide)

/-! ## Claim C4: empty batch fails, non-empty batch does not -/

/-- C4. agrupar_con_modelo fails with the insufficient-data error exactly on
the empty batch: the error is raised by the scaler before any clustered
output is produced, and a non-empty batch never raises it. -/
theorem agrupar_con_modelo_error_iff (sqrtFn : ℚ → ℚ)
    (model : List (ℚ × ℚ × ℚ) → List ℤ) (df : List Sample) :
    agrupar_con_modelo sqrtFn model df = .error .insufficientData ↔ df = [] := by
  cases df with
  | nil => simp [agrupar_con_modelo, fit_transform]
  | cons a t => simp [agrupar_con_modelo, fit_transform]

/-! ## Claim C1: the alert filter and its speed threshold -/

/-- A summary row with mean speed 7: kept by the spec's evaluator at speed
threshold 10, dropped by the code's filter whose threshold is the literal 5. -/
def cexRow : SummaryRow := ⟨1, 3, 0, 0, 7⟩

/-- Counterexample for C1 as stated: the code's filter does not implement
the spec contract for the configuration with speed_threshold 10, because the
code compares mean speed against the hardcoded 5, not against a configured
threshold. -/
theorem alertFilter_threshold_not_configurable :
    alertFilter 1 true [cexRow] ≠ alertFilterSpec 1 true 10 [cexRow] := by
  decide

/-- C1 as amended: with the speed threshold fixed at the code's literal 5,
the filter returns exactly the subset of summary rows whose count is at
least min_cluster_size and, when the speed filter is enabled, whose mean
speed is below 5; with the filter disabled, the count alone decides. -/
theorem alertFilter_mem_iff (ms : ℕ) (en : Bool) (s : List SummaryRow)
    (r : SummaryRow) :
    r ∈ alertFilter ms en s ↔
      r ∈ s ∧ ms ≤ r.count ∧ (en = true → r.vel_prom < 5) := by
  cases en <;> simp [alertFilter, List.mem_filter, and_assoc]

/-! ## Claim C8: monotonicity of the size threshold -/

/-- C8. Raising min_cluster_size never increases the number of summary rows
the alert filter matches. -/
theorem alertFilter_size_threshold_antitone (a b : ℕ) (en : Bool)
    (s : List SummaryRow) (hab : a ≤ b) :
    (alertFilter b en s).length ≤ (alertFilter a en s).length := by
  apply List.Sublist.length_le
  apply List.monotone_filter_right
  intro r hr
  simp only [Bool.and_eq_true, decide_eq_true_eq] at hr ⊢
  exact ⟨Nat.le_trans hab hr.1, hr.2⟩

/-- Witness for C8 at min sizes 2 ≤ 4 on a two-row summary table. -/
theorem alertFilter_size_threshold_antitone_witness :
    (alertFilter 4 false [⟨0, 3, 0, 0, 2⟩, ⟨1, 5, 0, 0, 9⟩]).length ≤
      (alertFilter 2 false [⟨0, 3, 0, 0, 2⟩, ⟨1, 5, 0, 0, 9⟩]).length :=
  alertFilter_size_threshold_antitone 2 4 false _ (by decide)

/-! ## Claim C10: what the core's per-sample outputs are -/

/-- Counterexample for C10 as stated: on a concrete one-sample batch the
core's emitted micro-stop value is the warning emoji — the very display
marker string the rendering loop (renderColor, app.py line 146) branches on
— not a boolean. -/
theorem micro_flag_is_display_marker :
    (detectar_microparadas [⟨0, 0, 2⟩]).map (fun r => r.alerta) = ["⚠️"] ∧
    renderColor { row := ⟨0, 0, 2⟩, alerta := "⚠️" } = "red" := by
  decide

/-- C10 as amended: the micro-stop flag is emitted as one of the two fixed
marker strings (warning or check emoji), a faithful two-valued encoding of
the boolean predicate speed below 5; no color string is ever the emitted
value. -/
theorem core_output_marker_strings (df : List Sample) (r : MicroRow)
    (hr : r ∈ detectar_microparadas df) :
    (r.alerta = "⚠️" ∨ r.alerta = "✅") ∧ (r.alerta = "⚠️" ↔ r.row.vel < 5) ∧
    r.alerta ≠ "red" ∧ r.alerta ≠ "green" ∧ r.alerta ≠ "gray" := by
  simp only [detectar_microparadas, List.mem_map] at hr
  obtain ⟨s, -, rfl⟩ := hr
  by_cases h : s.vel < 5 <;> simp [h]

/-- Witness for C10's amended theorem at a one-sample batch with speed 9. -/
theorem core_output_marker_strings_witness :
    ((({ row := ⟨0, 0, 9⟩, alerta := "✅" } : MicroRow).alerta = "⚠️" ∨
        ({ row := ⟨0, 0, 9⟩, alerta := "✅" } : MicroRow).alerta = "✅") ∧
      (({ row := ⟨0, 0, 9⟩, alerta := "✅" } : MicroRow).alerta = "⚠️" ↔
        ({ row := ⟨0, 0, 9⟩, alerta := "✅" } : MicroRow).row.vel < 5) ∧
      ({ row := ⟨0, 0, 9⟩, alerta := "✅" } : MicroRow).alerta ≠ "red" ∧
      ({ row := ⟨0, 0, 9⟩, alerta := "✅" } : MicroRow).alerta ≠ "green" ∧
      ({ row := ⟨0, 0, 9⟩, alerta := "✅" } : MicroRow).alerta ≠ "gray") :=
  core_output_marker_strings [⟨0, 0, 9⟩] _ (by decide)

/-! ## Claim C7: the zero-variance guard of the normalizer -/

/-- Sum of a list whose members are all the same rational. -/
theorem sum_const_of_mem (xs : List ℚ) (v : ℚ) (hall : ∀ x ∈ xs, x = v) :
    xs.sum = (xs.length : ℚ) * v := by
  induction xs with
  | nil => simp
  | cons a t ih =>
    have ha : a = v := hall a (by simp)
    have ht : t.sum = (t.length : ℚ) * v := ih (fun x hx => hall x (by simp [hx]))
    rw [List.sum_cons, ha, ht, List.length_cons]
    push_cast
    ring

/-- C7. On a non-empty column whose values are all identical the scaler's
divisor is the guard value 1 (never the zero variance itself), and every
standardized value of that column is exactly 0 — for any square-root
function, so no division by zero and no undefined value can arise. -/
theorem standardizeCol_const_eq_zero (sqrtFn : ℚ → ℚ) (xs : List ℚ) (v : ℚ)
    (hne : xs ≠ []) (hall : ∀ x ∈ xs, x = v) :
    colScale sqrtFn xs = 1 ∧ ∀ y ∈ standardizeCol sqrtFn xs, y = 0 := by
  have h0 : xs.length ≠ 0 := fun h => hne (List.length_eq_zero.mp h)
  have hq : (xs.length : ℚ) ≠ 0 := Nat.cast_ne_zero.mpr h0
  have hsum : xs.sum = (xs.length : ℚ) * v := sum_const_of_mem xs v hall
  have hmean : colMean xs = v := by
    rw [colMean, hsum, mul_comm, mul_div_assoc, div_self hq, mul_one]
  have hvar : colVar xs = 0 := by
    rw [colVar]
    have hz : xs.map (fun x => (x - colMean xs) ^ 2) = xs.map (fun _ => 0) := by
      apply List.map_congr_left
      intro x hx
      rw [hall x hx, hmean, sub_self]
      ring
    rw [hz]
    simp
  refine ⟨by rw [colScale, if_pos hvar], ?_⟩
  intro y hy
  simp only [standardizeCol, List.mem_map] at hy
  obtain ⟨x, hx, rfl⟩ := hy
  rw [hall x hx, hmean, sub_self, zero_div]

/-- Witness for C7 at the constant speed column with value 2. -/
theorem standardizeCol_const_eq_zero_witness :
    colScale id [2, 2] = 1 ∧ ∀ y ∈ standardizeCol id [2, 2], y = 0 :=
  standardizeCol_const_eq_zero id [2, 2] 2 (by decide) (by decide)

/-! ## Claim C9: the pipeline does not change the input batch -/

/-- Length of the standardized feature matrix: one row per input sample. -/
theorem fit_transform_length (sqrtFn : ℚ → ℚ) (df : List Sample)
    (x : List (ℚ × ℚ × ℚ)) (h : fit_transform sqrtFn df = .ok x) :
    x.length = df.length := by
  cases df with
  | nil => simp [fit_transform] at h
  | cons a t =>
    simp only [fit_transform, List.isEmpty_cons, Bool.false_eq_true,
      if_false, Except.ok.injEq] at h
    subst h
    simp [standardizeCol, List.length_zip]

/-- C9. Both stages are pure functions of the batch: detectar_microparadas
returns rows whose sample component is exactly the input batch in order, and
agrupar_con_modelo (whenever it succeeds, assuming the DBSCAN model returns
one label per feature row) does the same — in the source both work on a
df.copy, leaving every original field of the caller's batch unchanged. -/
theorem pipeline_preserves_batch (sqrtFn : ℚ → ℚ)
    (model : List (ℚ × ℚ × ℚ) → List ℤ) (df : List Sample)
    (out : List ClusterRow) (hm : ∀ x, (model x).length = x.length) :
    (detectar_microparadas df).map (fun r => r.row) = df ∧
    (agrupar_con_modelo sqrtFn model df = .ok out →
      out.map (fun r => r.row) = df) := by
  constructor
  · induction df with
    | nil => rfl
    | cons a t ih => simpa [detectar_microparadas] using ih
  · intro h
    cases hft : fit_transform sqrtFn df with
    | error e =>
      rw [agrupar_con_modelo, hft] at h
      cases h
    | ok x =>
      rw [agrupar_con_modelo, hft] at h
      have hx := fit_transform_length sqrtFn df x hft
      injection h with h
      subst h
      rw [List.map_map]
      have hlen : df.length ≤ (model x).length := by rw [hm x, hx]
      exact List.map_fst_zip df (model x) hlen

/-- A one-sample batch for the C9 witness. -/
def sampleW : Sample := ⟨0, 0, 3⟩

/-- A concrete stand-in for the fitted DBSCAN model: every point labelled 0
(one label per row, as fit_predict guarantees). -/
def modelW (x : List (ℚ × ℚ × ℚ)) : List ℤ := x.map (fun _ => 0)

/-- Witness for C9 at a one-sample batch and the constant model. -/
theorem pipeline_preserves_batch_witness :
    (detectar_microparadas [sampleW]).map (fun r => r.row) = [sampleW] ∧
    (agrupar_con_modelo id modelW [sampleW] =
        .ok [{ row := sampleW, cluster := 0 }] →
      ([{ row := sampleW, cluster := 0 }] : List ClusterRow).map
        (fun r => r.row) = [sampleW]) :=
  pipeline_preserves_batch id modelW [sampleW] [{ row := sampleW, cluster := 0 }]
    (fun x => by simp [modelW])

/-! ## Membership structure of the summary table (for C3 and C5) -/

/-- Sorting the summary rows changes no membership. -/
theorem mem_summary_iff {dfc : List ClusterRow} {s : SummaryRow} :
    s ∈ summary dfc ↔ s ∈ groupbyCluster dfc := by
  simp [summary, sortValuesCountDesc, List.mem_insertionSort]

/-- Every row of the groupby output is the aggregation of one non-noise
cluster id over the noise-free dataframe. -/
theorem mem_groupbyCluster {dfc : List ClusterRow} {s : SummaryRow}
    (hs : s ∈ groupbyCluster dfc) :
    ∃ c : ℤ, c ≠ -1 ∧
      s = summaryRow (dfc.filter (fun r => r.cluster ≠ -1)) c := by
  simp only [groupbyCluster, List.mem_map] at hs
  obtain ⟨c, hc, rfl⟩ := hs
  refine ⟨c, ?_, rfl⟩
  rw [List.mem_insertionSort, List.mem_dedup] at hc
  simp only [List.mem_map, List.mem_filter, decide_eq_true_eq] at hc
  obtain ⟨r, ⟨-, hr⟩, rfl⟩ := hc
  exact hr

/-- For a non-noise cluster id, the members taken from the noise-filtered
dataframe are the members taken from the full dataframe. -/
theorem membersOf_filter_ne {dfc : List ClusterRow} {c : ℤ} (hc : c ≠ -1) :
    membersOf (dfc.filter (fun r => r.cluster ≠ -1)) c = membersOf dfc c := by
  unfold membersOf
  rw [List.filter_filter]
  apply List.filter_congr
  intro r hr
  by_cases h : r.cluster = c
  · simp [h, hc]
  · simp [h]

/-- Aggregating over two dataframes with the same members for a cluster id
gives the same summary row. -/
theorem summaryRow_congr {valid dfc : List ClusterRow} {c : ℤ}
    (h : membersOf valid c = membersOf dfc c) :
    summaryRow valid c = summaryRow dfc c := by
  simp [summaryRow, h]

/-! ## Claim C3: consistency of size, centroid and mean speed -/

/-- C3. Every row of the summary table reports as count exactly the number
of dataframe rows assigned its cluster id, and as centroid coordinates and
mean speed exactly the arithmetic means of those members' latitudes,
longitudes and speeds. -/
theorem summary_rows_consistent (dfc : List ClusterRow) (s : SummaryRow)
    (hs : s ∈ summary dfc) :
    s.count = (membersOf dfc s.cluster).length ∧
    s.lat = ((membersOf dfc s.cluster).map (fun r => r.row.lat)).sum /
      (membersOf dfc s.cluster).length ∧
    s.lon = ((membersOf dfc s.cluster).map (fun r => r.row.lon)).sum /
      (membersOf dfc s.cluster).length ∧
    s.vel_prom = ((membersOf dfc s.cluster).map (fun r => r.row.vel)).sum /
      (membersOf dfc s.cluster).length := by
  obtain ⟨c, hc, rfl⟩ := mem_groupbyCluster (mem_summary_iff.mp hs)
  rw [summaryRow_congr (membersOf_filter_ne hc)]
  exact ⟨rfl, rfl, rfl, rfl⟩

/-- A concrete clustered dataframe: two rows of cluster 0 and one noise row. -/
def exDfc : List ClusterRow :=
  [{ row := ⟨0, 0, 1⟩, cluster := 0 }, { row := ⟨2, 0, 3⟩, cluster := 0 },
   { row := ⟨1, 1, 9⟩, cluster := -1 }]

/-- The noise-free part of the concrete dataframe. -/
def exValid : List ClusterRow := exDfc.filter (fun r => r.cluster ≠ -1)

/-- Witness for C3 at the concrete dataframe's single summary row. -/
theorem summary_rows_consistent_witness :
    (summaryRow exValid 0).count = (membersOf exDfc 0).length ∧
    (summaryRow exValid 0).lat =
      ((membersOf exDfc 0).map (fun r => r.row.lat)).sum /
        (membersOf exDfc 0).length ∧
    (summaryRow exValid 0).lon =
      ((membersOf exDfc 0).map (fun r => r.row.lon)).sum /
        (membersOf exDfc 0).length ∧
    (summaryRow exValid 0).vel_prom =
      ((membersOf exDfc 0).map (fun r => r.row.vel)).sum /
        (membersOf exDfc 0).length :=
  summary_rows_consistent exDfc (summaryRow exValid 0) (List.Mem.head _)

/-! ## Claim C5: noise never appears in the summary -/

/-- C5. No row of the summary table carries the noise marker -1 as its
cluster id: noise-labelled points are dropped before grouping. -/
theorem summary_no_noise (dfc : List ClusterRow) (s : SummaryRow)
    (hs : s ∈ summary dfc) : s.cluster ≠ -1 := by
  obtain ⟨c, hc, rfl⟩ := mem_groupbyCluster (mem_summary_iff.mp hs)
  exact hc

/-- Witness for C5 at the concrete dataframe's single summary row. -/
theorem summary_no_noise_witness : (summaryRow exValid 0).cluster ≠ -1 :=
  summary_no_noise exDfc (summaryRow exValid 0) (List.Mem.head _)

/-! ## Claim C6: the ordering of the summary table -/

/-- Two distinct members of a list occur in one of the two orders. -/
theorem sublist_pair_of_mem {α : Type} {a b : α} {l : List α} (ha : a ∈ l)
    (hb : b ∈ l) (hne : a ≠ b) : List.Sublist [a, b] l ∨ List.Sublist [b, a] l := by
  induction l with
  | nil => cases ha
  | cons c t ih =>
    rcases List.mem_cons.mp ha with rfl | ha2
    · have hb2 : b ∈ t := by
        rcases List.mem_cons.mp hb with rfl | h
        · exact absurd rfl hne
        · exact h
      exact Or.inl (List.Sublist.cons₂ a (List.singleton_sublist.mpr hb2))
    · rcases List.mem_cons.mp hb with rfl | hb2
      · exact Or.inr (List.Sublist.cons₂ b (List.singleton_sublist.mpr ha2))
      · rcases ih ha2 hb2 with h | h
        · exact Or.inl (List.Sublist.cons c h)
        · exact Or.inr (List.Sublist.cons c h)

/-- In a duplicate-free list two elements cannot occur in both orders. -/
theorem not_pair_sublist_both {α : Type} {a b : α} {l : List α}
    (hn : l.Nodup) (h1 : List.Sublist [a, b] l) (h2 : List.Sublist [b, a] l) : False := by
  induction l with
  | nil => cases h1
  | cons c t ih =>
    have hct : c ∉ t := (List.nodup_cons.mp hn).1
    have hnt : t.Nodup := (List.nodup_cons.mp hn).2
    cases h1 with
    | cons _ h1t =>
      cases h2 with
      | cons _ h2t => exact ih hnt h1t h2t
      | cons₂ _ h2t => exact hct (h1t.subset (by simp))
    | cons₂ _ h1t =>
      cases h2 with
      | cons _ h2t => exact hct (h2t.subset (by simp))
      | cons₂ _ h2t => exact hct (h2t.subset (by simp))

/-- What numpy guarantees of argsort for every sort kind, on the count key:
the output is a permutation of the input that is ascending in count. The
default quicksort promises nothing more — in particular no order among
equal counts. -/
def IsCountAscSort (f : List SummaryRow → List SummaryRow) : Prop :=
  ∀ l : List SummaryRow, List.Perm (f l) l ∧
    (f l).Pairwise (fun a b => a.count ≤ b.count)

/-- Stability on the count key, in pair-sublist form: equal-count rows (more
generally, rows already in ascending count order) keep their relative order.
numpy's mergesort and stable kinds have this property for every input;
the default quicksort has it only while its small-array insertion-sort
regime applies, not in general. -/
def IsStableCountSort (f : List SummaryRow → List SummaryRow) : Prop :=
  ∀ (l : List SummaryRow) (a b : SummaryRow), a.count ≤ b.count →
    List.Sublist [a, b] l → List.Sublist [a, b] (f l)

/-- app.py line 181 with the underlying ascending argsort left abstract:
pandas (pandas.core.sorting.nargsort) implements sort_values with ascending
false by reversing the rows, argsorting ascending, and reversing the
resulting indexer. -/
def sortValuesCountDescWith (f : List SummaryRow → List SummaryRow)
    (rows : List SummaryRow) : List SummaryRow :=
  (f rows.reverse).reverse

/-- The summary dataframe of app.py lines 175-182 when the underlying
ascending argsort behaves as f. -/
def summaryWith (f : List SummaryRow → List SummaryRow)
    (dfc : List ClusterRow) : List SummaryRow :=
  sortValuesCountDescWith f (groupbyCluster dfc)

/-- The stable ascending sort on the count key (what numpy's argsort does
within its insertion-sort regime and for the stable kinds). -/
def stableCountSort (l : List SummaryRow) : List SummaryRow :=
  List.insertionSort (fun a b => a.count ≤ b.count) l

/-- An ascending sort on the count key that meets everything numpy
guarantees of the default quicksort but reverses the relative order of
equal-count rows (it stably sorts the reversed list). -/
def antiStableCountSort (l : List SummaryRow) : List SummaryRow :=
  List.insertionSort (fun a b => a.count ≤ b.count) l.reverse

/-- The fixed summary model used for the membership claims coincides with
the argsort-parametric model at the stable sort. -/
theorem summary_eq_summaryWith_stable (dfc : List ClusterRow) :
    summary dfc = summaryWith stableCountSort dfc := rfl

/-- The stable count sort is an ascending count sort. -/
theorem stableCountSort_is_sort : IsCountAscSort stableCountSort := by
  intro l
  haveI : IsTotal SummaryRow (fun a b => a.count ≤ b.count) :=
    ⟨fun a b => Nat.le_total a.count b.count⟩
  haveI : IsTrans SummaryRow (fun a b => a.count ≤ b.count) :=
    ⟨fun a b c h1 h2 => Nat.le_trans h1 h2⟩
  exact ⟨List.perm_insertionSort _ _, List.sorted_insertionSort _ _⟩

/-- The stable count sort is stable. -/
theorem stableCountSort_is_stable : IsStableCountSort stableCountSort := by
  intro l a b hab hsub
  exact @List.pair_sublist_insertionSort SummaryRow
    (fun a b => a.count ≤ b.count) _ a b l hab hsub

/-- The tie-reversing count sort is also an ascending count sort, so it is
an admissible behavior of the default argsort. -/
theorem antiStableCountSort_is_sort : IsCountAscSort antiStableCountSort := by
  intro l
  haveI : IsTotal SummaryRow (fun a b => a.count ≤ b.count) :=
    ⟨fun a b => Nat.le_total a.count b.count⟩
  haveI : IsTrans SummaryRow (fun a b => a.count ≤ b.count) :=
    ⟨fun a b c h1 h2 => Nat.le_trans h1 h2⟩
  exact ⟨(List.perm_insertionSort _ _).trans (List.reverse_perm l),
    List.sorted_insertionSort _ _⟩

/-- Descending sort under a stable argsort: on rows with strictly
increasing cluster ids (as groupby emits them), sorting by count with
ascending false orders the counts descending and keeps equal-count rows in
their original ascending-cluster order. -/
theorem sortValuesCountDescWith_pairwise (f : List SummaryRow → List SummaryRow)
    (hf : IsCountAscSort f) (hstable : IsStableCountSort f)
    (rows : List SummaryRow)
    (h : rows.Pairwise (fun a b => a.cluster < b.cluster)) :
    (sortValuesCountDescWith f rows).Pairwise
      (fun a b => b.count < a.count ∨ (b.count = a.count ∧ a.cluster < b.cluster)) := by
  unfold sortValuesCountDescWith
  rw [List.pairwise_reverse]
  have hinp : rows.reverse.Pairwise (fun a b : SummaryRow => b.cluster < a.cluster) :=
    List.pairwise_reverse.mpr h
  have hnodup : rows.reverse.Nodup := by
    refine List.Pairwise.imp ?_ hinp
    intro a b hab he
    rw [he] at hab
    exact lt_irrefl _ hab
  have hsorted : (f rows.reverse).Pairwise (fun a b => a.count ≤ b.count) :=
    (hf rows.reverse).2
  have hperm : List.Perm (f rows.reverse) rows.reverse := (hf rows.reverse).1
  have hnodup2 : (f rows.reverse).Nodup := hperm.nodup_iff.mpr hnodup
  rw [List.pairwise_iff_forall_sublist]
  intro a b hab
  have hle : a.count ≤ b.count := List.pairwise_iff_forall_sublist.mp hsorted hab
  have hne : a ≠ b := List.pairwise_iff_forall_sublist.mp hnodup2 hab
  rcases Nat.lt_or_ge a.count b.count with hlt | hge
  · exact Or.inl hlt
  · have heq : a.count = b.count := Nat.le_antisymm hle hge
    refine Or.inr ⟨heq, ?_⟩
    have hain : a ∈ rows.reverse := hperm.subset (hab.subset (by simp))
    have hbin : b ∈ rows.reverse := hperm.subset (hab.subset (by simp))
    rcases sublist_pair_of_mem hain hbin hne with hpair | hpair
    · exact List.pairwise_iff_forall_sublist.mp hinp hpair
    · exact absurd (hstable rows.reverse b a (le_of_eq heq.symm) hpair)
        (fun hcon => not_pair_sublist_both hnodup2 hab hcon)

/-- The groupby output lists its rows in strictly ascending cluster-id
order: the keys of a pandas groupby are the sorted distinct key values. -/
theorem groupbyCluster_pairwise (dfc : List ClusterRow) :
    (groupbyCluster dfc).Pairwise (fun a b => a.cluster < b.cluster) := by
  simp only [groupbyCluster]
  rw [List.pairwise_map]
  have hnd :
      ((dfc.filter (fun r => r.cluster ≠ -1)).map (fun r => r.cluster)).dedup.Nodup :=
    List.nodup_dedup _
  have hsorted := List.sorted_insertionSort (α := ℤ) (· ≤ ·)
    ((dfc.filter (fun r => r.cluster ≠ -1)).map (fun r => r.cluster)).dedup
  have hnd2 := (List.perm_insertionSort (α := ℤ) (· ≤ ·) _).nodup_iff.mpr hnd
  refine List.Pairwise.imp ?_ (hsorted.and hnd2)
  intro a b hab
  exact lt_of_le_of_ne hab.1 hab.2

/-- A batch producing two clusters of equal size 2 (clusters 0 and 1). -/
def tiesDfc : List ClusterRow :=
  [{ row := ⟨0, 0, 1⟩, cluster := 0 }, { row := ⟨0, 0, 1⟩, cluster := 0 },
   { row := ⟨0, 0, 1⟩, cluster := 1 }, { row := ⟨0, 0, 1⟩, cluster := 1 }]

/-- Counterexample for C6 as stated: an argsort meeting everything numpy
guarantees of the default quicksort (an ascending-by-count permutation)
under which the batch with two equal-size clusters yields its equal-size
summary rows in descending cluster order — sort_values with the default
unstable kind does not order ties by ascending cluster id for every batch. -/
theorem summary_tie_order_not_guaranteed :
    IsCountAscSort antiStableCountSort ∧
    ¬ (summaryWith antiStableCountSort tiesDfc).Pairwise
        (fun a b => b.count < a.count ∨ (b.count = a.count ∧ a.cluster < b.cluster)) :=
  ⟨antiStableCountSort_is_sort, by decide⟩

/-- C6 as amended. For every batch and every argsort meeting numpy's
contract (an ascending-by-count permutation), the summary rows are ordered
by descending size; equal-size rows appear in ascending cluster-id order
whenever the argsort is additionally stable (as numpy's default quicksort
is only within its small-array insertion-sort regime), but not in
general. -/
theorem summaryWith_sorted (f : List SummaryRow → List SummaryRow)
    (hf : IsCountAscSort f) (dfc : List ClusterRow) :
    (summaryWith f dfc).Pairwise (fun a b => b.count ≤ a.count) ∧
    (IsStableCountSort f →
      (summaryWith f dfc).Pairwise
        (fun a b => b.count < a.count ∨ (b.count = a.count ∧ a.cluster < b.cluster))) := by
  constructor
  · unfold summaryWith sortValuesCountDescWith
    rw [List.pairwise_reverse]
    exact (hf _).2
  · intro hstable
    exact sortValuesCountDescWith_pairwise f hf hstable _ (groupbyCluster_pairwise dfc)

/-- Witness for C6's amended theorem at the stable sort and the equal-size
two-cluster batch. -/
theorem summaryWith_sorted_witness :
    (summaryWith stableCountSort tiesDfc).Pairwise (fun a b => b.count ≤ a.count) ∧
    (IsStableCountSort stableCountSort →
      (summaryWith stableCountSort tiesDfc).Pairwise
        (fun a b => b.count < a.count ∨ (b.count = a.count ∧ a.cluster < b.cluster))) :=
  summaryWith_sorted stableCountSort stableCountSort_is_sort tiesDfc

end AlertaVial
